import Mathlib

/-!
Shallow embedding of the stealthVPN core transport protocol
(packet obfuscation codec, layered AEAD encryption engine, X25519-style
key exchange, and the per-session forwarding loops), together with
theorems checking the natural-language specification against it.

Bytes are modelled as `Nat` values (each produced byte is `< 256` by
construction); byte strings are `List Nat`.  Machine integers use
explicit `% 2 ^ 32` where the Go code converts through `uint32`.
Randomness (padding sizes, decoy header choices, nonces) is modelled by
explicit draw functions threaded through the operations, so theorems
quantify over every random choice the code can make.
-/

set_option maxHeartbeats 1000000
set_option maxRecDepth 1000000

namespace StealthVPN

/-- ASCII bytes of a string constant (all constants in the source are ASCII). -/
def strBytes (s : String) : List Nat :=
  s.toList.map Char.toNat

/-- The header terminator `\r\n\r\n` used by the obfuscation codec. -/
def crlf2 : List Nat := [13, 10, 13, 10]

/-- The line separator `\r\n`. -/
def crlf : List Nat := [13, 10]

/-- Little-endian byte encoding of `n` on `k` bytes (the convention of
`curve25519` values and of Poly1305 tags). -/
def encodeLE : Nat → Nat → List Nat
  | 0, _ => []
  | k + 1, n => n % 256 :: encodeLE k (n / 256)

/-- Little-endian byte decoding. -/
def decodeLE : List Nat → Nat
  | [] => 0
  | b :: t => b + 256 * decodeLE t

/-- `binary.BigEndian.PutUint32(lengthBytes, uint32 n)`: the four
big-endian bytes of `n` truncated to 32 bits. -/
def beBytes4 (n : Nat) : List Nat :=
  [n / 2 ^ 24 % 256, n / 2 ^ 16 % 256, n / 2 ^ 8 % 256, n % 256]

/-- `binary.BigEndian.Uint32` on the first four bytes of a buffer. -/
def beUint32 (l : List Nat) : Nat :=
  l.getD 0 0 * 2 ^ 24 + l.getD 1 0 * 2 ^ 16 + l.getD 2 0 * 2 ^ 8 + l.getD 3 0

/-- Byte-wise xor of two buffers (`zipWith`, truncating to the shorter). -/
def xorBytes (a b : List Nat) : List Nat :=
  List.zipWith (fun x y => x ^^^ y) a b

/-- `bytes.Index buf pat` for a non-empty pattern: index of the first
occurrence of `pat` as a contiguous sub-sequence of `buf`, or `none`. -/
def indexOfPat (pat : List Nat) : List Nat → Option Nat
  | [] => none
  | a :: rest =>
      if pat.isPrefixOf (a :: rest) then some 0
      else (indexOfPat pat rest).map (· + 1)

/-! ## Obfuscation codec (`StealthProtocol`, `src/unnamed/part_000`) -/

/-- The fixed user-agent pool of `NewStealthProtocol`. -/
def userAgents : List (List Nat) :=
  [strBytes "Mozilla/5.0 (Windows NT 10.0; Win64; x64) AppleWebKit/537.36 (KHTML, like Gecko) Chrome/120.0.0.0 Safari/537.36",
   strBytes "Mozilla/5.0 (Windows NT 10.0; Win64; x64; rv:121.0) Gecko/20100101 Firefox/121.0",
   strBytes "Mozilla/5.0 (Macintosh; Intel Mac OS X 10_15_7) AppleWebKit/537.36 (KHTML, like Gecko) Chrome/120.0.0.0 Safari/537.36",
   strBytes "Mozilla/5.0 (X11; Linux x86_64) AppleWebKit/537.36 (KHTML, like Gecko) Chrome/120.0.0.0 Safari/537.36"]

/-- The fixed host-header pool of `NewStealthProtocol`. -/
def hostHeaders : List (List Nat) :=
  [strBytes "cloudflare.com", strBytes "amazonaws.com", strBytes "googleapis.com",
   strBytes "microsoft.com", strBytes "apple.com"]

/-- `minPadding` of the stealth profile. -/
def minPadding : Nat := 16

/-- `maxPadding` of the stealth profile. -/
def maxPadding : Nat := 1024

/-- `randomInt(min, max)`: `min` when `max <= min`, otherwise
`min + n` where `n` is a uniform draw in `[0, max-min]`; the draw is
modelled by an arbitrary `Nat` reduced modulo the range size. -/
def randomInt (lo hi draw : Nat) : Nat :=
  if hi ≤ lo then lo else lo + draw % (hi - lo + 1)

/-- The base64-style alphabet of `generateFakeKey`. -/
def charsetBytes : List Nat :=
  strBytes "ABCDEFGHIJKLMNOPQRSTUVWXYZabcdefghijklmnopqrstuvwxyz0123456789+/"

/-- `generateFakeKey`: 24 random alphabet characters followed by `=`
(byte 61); `kd i` is the i-th random draw. -/
def generateFakeKey (kd : Nat → Nat) : List Nat :=
  ((List.range 24).map (fun i => charsetBytes.getD (randomInt 0 63 (kd i)) 0)) ++ [61]

/-- The body of `createFakeHTTPHeader` for user-agent index `i` and host
index `j`: the eleven header lines joined by `\r\n` (no trailing
terminator; `ObfuscatePacket` appends `\r\n\r\n` itself). -/
def headerBodyIdx (i j : Nat) : List Nat :=
  strBytes "GET /api/v1/data HTTP/1.1" ++ crlf ++
  strBytes "Host: " ++ hostHeaders.getD j [] ++ crlf ++
  strBytes "User-Agent: " ++ userAgents.getD i [] ++ crlf ++
  strBytes "Accept: text/html,application/xhtml+xml,application/xml;q=0.9,image/webp,*/*;q=0.8" ++ crlf ++
  strBytes "Accept-Language: en-US,en;q=0.5" ++ crlf ++
  strBytes "Accept-Encoding: gzip, deflate, br" ++ crlf ++
  strBytes "DNT: 1" ++ crlf ++
  strBytes "Connection: keep-alive" ++ crlf ++
  strBytes "Upgrade-Insecure-Requests: 1" ++ crlf ++
  strBytes "Pragma: no-cache" ++ crlf ++
  strBytes "Cache-Control: no-cache"

/-- `createFakeHTTPHeader` with its two random draws (`randomInt 0 3`
selects the user agent, `randomInt 0 4` the host). -/
def createFakeHTTPHeader (uaDraw hostDraw : Nat) : List Nat :=
  headerBodyIdx (randomInt 0 3 uaDraw) (randomInt 0 4 hostDraw)

/-- The fake WebSocket `101 Switching Protocols` block written by
`ObfuscatePacket`, up to (excluding) its final `\r\n\r\n` terminator. -/
def wsFixed : List Nat :=
  strBytes "HTTP/1.1 101 Switching Protocols" ++ crlf ++
  strBytes "Upgrade: websocket" ++ crlf ++
  strBytes "Connection: Upgrade" ++ crlf ++
  strBytes "Sec-WebSocket-Accept: "

/-- All random draws consumed by one `ObfuscatePacket` call. -/
structure ObfRand where
  padDraw : Nat
  padByte : Nat → Nat
  uaDraw : Nat
  hostDraw : Nat
  keyDraw : Nat → Nat

/-- The random padding appended by `ObfuscatePacket`: `randomInt(16, 1024)`
random bytes. -/
def obfPadding (r : ObfRand) : List Nat :=
  (List.range (randomInt minPadding maxPadding r.padDraw)).map (fun i => r.padByte i % 256)

/-- Everything `ObfuscatePacket` writes before the 4-byte length field:
fake HTTP header block, terminator, fake WebSocket upgrade block,
terminator. -/
def obfPrefix (r : ObfRand) : List Nat :=
  createFakeHTTPHeader r.uaDraw r.hostDraw ++ crlf2 ++
  (wsFixed ++ generateFakeKey r.keyDraw) ++ crlf2

/-- `StealthProtocol.ObfuscatePacket`: decoy header block, decoy WebSocket
handshake block, 4-byte big-endian payload length (`uint32(len(data))`),
payload, random padding. -/
def obfuscatePacket (r : ObfRand) (data : List Nat) : List Nat :=
  obfPrefix r ++ beBytes4 data.length ++ data ++ obfPadding r

/-- `StealthProtocol.DeobfuscatePacket`: locate and skip the two
`\r\n\r\n` terminators, read the 4-byte big-endian length, return exactly
that many payload bytes, discarding the padding. -/
def deobfuscatePacket (obf : List Nat) : Except String (List Nat) :=
  match indexOfPat crlf2 obf with
  | none => .error "invalid packet format"
  | some headerEnd =>
    let payload := obf.drop (headerEnd + 4)
    match indexOfPat crlf2 payload with
    | none => .error "invalid WebSocket format"
    | some wsEnd =>
      let payload1 := payload.drop (wsEnd + 4)
      if payload1.length < 4 then .error "packet too short"
      else
        let len := beUint32 (payload1.take 4)
        let payload2 := payload1.drop 4
        if payload2.length < len then .error "incomplete packet"
        else .ok (payload2.take len)

/-! ## First-occurrence search: characterization lemmas -/

theorem crlf2_prefix_iff (t : List Nat) :
    crlf2 <+: t ↔ t[0]? = some 13 ∧ t[1]? = some 10 ∧ t[2]? = some 13 ∧ t[3]? = some 10 := by
  constructor
  · rintro ⟨u, rfl⟩
    simp [crlf2]
  · rintro ⟨h0, h1, h2, h3⟩
    match t with
    | [] => simp at h0
    | [_] => simp at h1
    | [_, _] => simp at h2
    | [_, _, _] => simp at h3
    | a :: b :: c :: d :: rest =>
      simp at h0 h1 h2 h3
      subst h0 h1 h2 h3
      exact ⟨rest, rfl⟩

theorem indexOfPat_eq_none_iff (pat : List Nat) (hpat : pat ≠ []) (l : List Nat) :
    indexOfPat pat l = none ↔ ∀ i, ¬ pat <+: l.drop i := by
  induction l with
  | nil =>
    constructor
    · intro _ i
      rw [List.drop_nil]
      intro h
      exact hpat (List.prefix_nil.mp h)
    · intro _
      rfl
  | cons a rest ih =>
    rw [indexOfPat]
    constructor
    · intro h i
      by_cases hp : pat.isPrefixOf (a :: rest)
      · simp [hp] at h
      · simp [hp] at h
        match i with
        | 0 =>
          simp only [List.drop_zero]
          rw [← List.isPrefixOf_iff_prefix]
          simpa using hp
        | i + 1 =>
          simp only [List.drop_succ_cons]
          exact (ih.mp h) i
    · intro h
      have hp : ¬ pat.isPrefixOf (a :: rest) := by
        rw [List.isPrefixOf_iff_prefix]
        simpa using h 0
      simp [hp]
      exact ih.mpr (fun i => by simpa using h (i + 1))

theorem transfer_aux (X C : List Nat) (p b : Nat) (hp : p ≤ X.length + 2)
    (h : (X ++ (crlf2 ++ C))[p]? = some b) :
    (X ++ [13, 10, 13])[p]? = some b := by
  by_cases hlt : p < X.length
  · rw [List.getElem?_append_left hlt] at h ⊢
    exact h
  · push_neg at hlt
    rw [List.getElem?_append_right hlt] at h ⊢
    have hm : p - X.length = 0 ∨ p - X.length = 1 ∨ p - X.length = 2 := by omega
    rcases hm with hm | hm | hm <;> rw [hm] at h ⊢ <;> simpa [crlf2] using h

theorem crlf2_transfer (X C : List Nat) (i : Nat) (hi : i < X.length)
    (h : crlf2 <+: (X ++ (crlf2 ++ C)).drop i) :
    crlf2 <+: (X ++ [13, 10, 13]).drop i := by
  rw [crlf2_prefix_iff] at h ⊢
  obtain ⟨h0, h1, h2, h3⟩ := h
  rw [List.getElem?_drop] at h0 h1 h2 h3
  refine ⟨?_, ?_, ?_, ?_⟩ <;> rw [List.getElem?_drop]
  · exact transfer_aux X C _ _ (by omega) h0
  · exact transfer_aux X C _ _ (by omega) h1
  · exact transfer_aux X C _ _ (by omega) h2
  · exact transfer_aux X C _ _ (by omega) h3

theorem indexOfPat_boundary (A C : List Nat)
    (hA : ∀ i, ¬ crlf2 <+: (A ++ [13, 10, 13]).drop i) :
    indexOfPat crlf2 (A ++ (crlf2 ++ C)) = some A.length := by
  induction A with
  | nil =>
    simp only [List.nil_append]
    rw [show (crlf2 ++ C) = 13 :: 10 :: 13 :: 10 :: C from rfl]
    rw [indexOfPat, if_pos]
    · rfl
    · rw [List.isPrefixOf_iff_prefix]
      exact ⟨C, rfl⟩
  | cons a A ih =>
    have hstep : ∀ i, ¬ crlf2 <+: (A ++ [13, 10, 13]).drop i := by
      intro i hp
      exact hA (i + 1) (by simpa using hp)
    have hne : ¬ crlf2.isPrefixOf (a :: (A ++ (crlf2 ++ C))) := by
      rw [List.isPrefixOf_iff_prefix]
      intro hp
      refine hA 0 ?_
      have := crlf2_transfer (a :: A) C 0 (by simp) (by simpa using hp)
      simpa using this
    rw [show (a :: A) ++ (crlf2 ++ C) = a :: (A ++ (crlf2 ++ C)) from rfl,
      indexOfPat, if_neg hne, ih hstep]
    rfl

theorem indexOfPat_first (A C : List Nat)
    (hA : indexOfPat crlf2 (A ++ [13, 10, 13]) = none) :
    indexOfPat crlf2 (A ++ (crlf2 ++ C)) = some A.length :=
  indexOfPat_boundary A C
    ((indexOfPat_eq_none_iff crlf2 (by simp [crlf2]) _).mp hA)

/-! ## The decoy blocks contain no `\r\n\r\n` before their terminators -/

theorem headerClean :
    ∀ i < 4, ∀ j < 5, indexOfPat crlf2 (headerBodyIdx i j ++ [13, 10, 13]) = none := by
  decide

theorem charset_getD_ne13 (j : Nat) : charsetBytes.getD j 0 ≠ 13 := by
  by_cases hj : j < 64
  · revert hj
    revert j
    decide
  · rw [List.getD_eq_default]
    · omega
    · push_neg at hj
      calc charsetBytes.length = 64 := by decide
      _ ≤ j := hj

theorem fakeKey_ne13 (kd : Nat → Nat) (b : Nat) (hb : b ∈ generateFakeKey kd) : b ≠ 13 := by
  rw [generateFakeKey, List.mem_append] at hb
  rcases hb with hb | hb
  · rw [List.mem_map] at hb
    obtain ⟨i, _, rfl⟩ := hb
    exact charset_getD_ne13 _
  · simp at hb
    omega

theorem fakeKey_length (kd : Nat → Nat) : (generateFakeKey kd).length = 25 := by
  simp [generateFakeKey]

theorem wsFixed_pair : ∀ i < wsFixed.length,
    ¬(wsFixed.getD i 0 = 13 ∧ wsFixed.getD (i + 2) 0 = 13) := by
  decide

theorem wsBody_no_crlf2 (kd : Nat → Nat) :
    ∀ i, ¬ crlf2 <+: ((wsFixed ++ generateFakeKey kd) ++ [13, 10, 13]).drop i := by
  intro i hp
  rw [crlf2_prefix_iff] at hp
  obtain ⟨h0, -, h2, h3⟩ := hp
  rw [List.getElem?_drop] at h0 h2 h3
  simp only [Nat.add_zero] at h0
  rw [List.append_assoc] at h0 h2 h3
  set F := wsFixed with hF
  set K := generateFakeKey kd with hK
  have hk : K.length = 25 := fakeKey_length kd
  obtain ⟨hi3, -⟩ := List.getElem?_eq_some.mp h3
  simp only [List.length_append, List.length_cons, List.length_nil] at hi3
  by_cases hiF : i < F.length
  · rw [List.getElem?_append_left hiF] at h0
    by_cases hi2F : i + 2 < F.length
    · rw [List.getElem?_append_left hi2F] at h2
      have e0 : F.getD i 0 = 13 := by
        rw [List.getD_eq_getElem F 0 hiF]
        exact Option.some.inj ((List.getElem?_eq_getElem hiF).symm.trans h0)
      have e2 : F.getD (i + 2) 0 = 13 := by
        rw [List.getD_eq_getElem F 0 hi2F]
        exact Option.some.inj ((List.getElem?_eq_getElem hi2F).symm.trans h2)
      exact wsFixed_pair i hiF ⟨e0, e2⟩
    · rw [List.getElem?_append_right (by omega), List.getElem?_append_left (by omega)] at h2
      obtain ⟨hlt, heq⟩ := List.getElem?_eq_some.mp h2
      exact fakeKey_ne13 kd _ (List.getElem_mem hlt) heq
  · have hiK : i - F.length < K.length := by omega
    rw [List.getElem?_append_right (by omega), List.getElem?_append_left hiK] at h0
    obtain ⟨hlt, heq⟩ := List.getElem?_eq_some.mp h0
    exact fakeKey_ne13 kd _ (List.getElem_mem hlt) heq

theorem wsClean (kd : Nat → Nat) :
    indexOfPat crlf2 ((wsFixed ++ generateFakeKey kd) ++ [13, 10, 13]) = none :=
  (indexOfPat_eq_none_iff crlf2 (by simp [crlf2]) _).mpr (wsBody_no_crlf2 kd)

/-! ## Round trip of the obfuscation codec -/

theorem beUint32_beBytes4 (n : Nat) : beUint32 (beBytes4 n) = n % 2 ^ 32 := by
  simp only [beUint32, beBytes4, List.getD]
  norm_num
  omega

theorem beBytes4_length (n : Nat) : (beBytes4 n).length = 4 := by
  simp [beBytes4]

theorem deob_obf_general (r : ObfRand) (data : List Nat) :
    deobfuscatePacket (obfuscatePacket r data) = .ok (data.take (data.length % 2 ^ 32)) := by
  have hH : indexOfPat crlf2
      (createFakeHTTPHeader r.uaDraw r.hostDraw ++ [13, 10, 13]) = none := by
    have h4 : randomInt 0 3 r.uaDraw < 4 := by
      simp only [randomInt]
      norm_num
      omega
    have h5 : randomInt 0 4 r.hostDraw < 5 := by
      simp only [randomInt]
      norm_num
      omega
    exact headerClean _ h4 _ h5
  set H := createFakeHTTPHeader r.uaDraw r.hostDraw with hHdef
  set W := wsFixed ++ generateFakeKey r.keyDraw with hWdef
  set tail1 := beBytes4 data.length ++ (data ++ obfPadding r) with htaildef
  have hframe : obfuscatePacket r data = H ++ (crlf2 ++ (W ++ (crlf2 ++ tail1))) := by
    simp [obfuscatePacket, obfPrefix, hHdef, hWdef, htaildef, List.append_assoc]
  have hfirst : indexOfPat crlf2 (H ++ (crlf2 ++ (W ++ (crlf2 ++ tail1)))) = some H.length :=
    indexOfPat_first H _ hH
  have hdrop1 : (H ++ (crlf2 ++ (W ++ (crlf2 ++ tail1)))).drop (H.length + 4)
      = W ++ (crlf2 ++ tail1) := by
    rw [show H ++ (crlf2 ++ (W ++ (crlf2 ++ tail1)))
        = (H ++ crlf2) ++ (W ++ (crlf2 ++ tail1)) by simp [List.append_assoc]]
    exact List.drop_left' (by simp [crlf2])
  have hsecond : indexOfPat crlf2 (W ++ (crlf2 ++ tail1)) = some W.length :=
    indexOfPat_first W _ (wsClean r.keyDraw)
  have hdrop2 : (W ++ (crlf2 ++ tail1)).drop (W.length + 4) = tail1 := by
    rw [show W ++ (crlf2 ++ tail1) = (W ++ crlf2) ++ tail1 by simp [List.append_assoc]]
    exact List.drop_left' (by simp [crlf2])
  have htail_len : tail1.length = 4 + (data.length + (obfPadding r).length) := by
    simp [htaildef, beBytes4_length]
  rw [hframe]
  rw [deobfuscatePacket.eq_def]
  rw [hfirst]
  simp only []
  rw [hdrop1, hsecond]
  simp only []
  rw [hdrop2]
  rw [if_neg (by omega)]
  have htake4 : tail1.take 4 = beBytes4 data.length :=
    List.take_left' (beBytes4_length data.length)
  have hdrop4 : tail1.drop 4 = data ++ obfPadding r :=
    List.drop_left' (beBytes4_length data.length)
  rw [htake4, hdrop4, beUint32_beBytes4]
  have hmodle : data.length % 2 ^ 32 ≤ data.length := Nat.mod_le _ _
  rw [if_neg (by simp only [List.length_append]; omega)]
  have : (data ++ obfPadding r).take (data.length % 2 ^ 32) = data.take (data.length % 2 ^ 32) := by
    rw [List.take_append_eq_append_take, Nat.sub_eq_zero_of_le hmodle, List.take_zero,
      List.append_nil]
  rw [this]

/-- Fixed all-zero randomness, used for concrete witnesses. -/
def obfRandZero : ObfRand :=
  { padDraw := 0, padByte := fun _ => 0, uaDraw := 0, hostDraw := 0, keyDraw := fun _ => 0 }

/-- C2 (amended): for every payload of length below `2 ^ 32` — the range
representable in the frame's `uint32` length field — and every random
choice of the codec, `DeobfuscatePacket (ObfuscatePacket P)` returns
exactly `P` with no error. -/
theorem obfuscate_roundtrip (r : ObfRand) (data : List Nat)
    (hlen : data.length < 2 ^ 32) :
    deobfuscatePacket (obfuscatePacket r data) = .ok data := by
  rw [deob_obf_general, Nat.mod_eq_of_lt hlen, List.take_length]

/-- Witness for `obfuscate_roundtrip` at a concrete packet. -/
theorem obfuscate_roundtrip_witness :
    ([1, 2, 3] : List Nat).length < 2 ^ 32 ∧
      deobfuscatePacket (obfuscatePacket obfRandZero [1, 2, 3]) = .ok [1, 2, 3] :=
  ⟨by norm_num, obfuscate_roundtrip obfRandZero [1, 2, 3] (by norm_num)⟩

/-- C2 counterexample: for the `2 ^ 32`-byte payload, `uint32(len(data))`
wraps to `0`, so the round trip returns the empty payload instead of `P`. -/
theorem obfuscate_roundtrip_cex :
    deobfuscatePacket (obfuscatePacket obfRandZero (List.replicate (2 ^ 32) 1)) ≠
      .ok (List.replicate (2 ^ 32) 1) := by
  rw [deob_obf_general]
  simp only [List.length_replicate, Nat.mod_self, List.take_zero]
  intro h
  have h2 : ([] : List Nat) = List.replicate (2 ^ 32) 1 := by
    injection h
  have h3 := congrArg List.length h2
  rw [List.length_replicate, List.length_nil] at h3
  norm_num at h3

/-- C7 (amended): every produced frame carries padding whose length lies
in `[16, 1024]`, and the 4-byte big-endian length field holds
`len(data) % 2 ^ 32`, which equals the exact payload length whenever the
payload is shorter than `2 ^ 32` bytes. -/
theorem obfuscate_padding_and_length (r : ObfRand) (data : List Nat)
    (hlen : data.length < 2 ^ 32) :
    minPadding ≤ (obfPadding r).length ∧ (obfPadding r).length ≤ maxPadding ∧
    obfuscatePacket r data =
      obfPrefix r ++ beBytes4 data.length ++ data ++ obfPadding r ∧
    beUint32 (beBytes4 data.length) = data.length := by
  refine ⟨?_, ?_, rfl, ?_⟩
  · simp only [obfPadding, randomInt, minPadding, maxPadding, List.length_map,
      List.length_range]
    norm_num
  · simp only [obfPadding, randomInt, minPadding, maxPadding, List.length_map,
      List.length_range]
    norm_num
    omega
  · rw [beUint32_beBytes4, Nat.mod_eq_of_lt hlen]

/-- Witness for `obfuscate_padding_and_length` at a concrete packet. -/
theorem obfuscate_padding_and_length_witness :
    ([9] : List Nat).length < 2 ^ 32 ∧
      (minPadding ≤ (obfPadding obfRandZero).length ∧
        (obfPadding obfRandZero).length ≤ maxPadding ∧
        obfuscatePacket obfRandZero [9] =
          obfPrefix obfRandZero ++ beBytes4 ([9] : List Nat).length ++ [9] ++
            obfPadding obfRandZero ∧
        beUint32 (beBytes4 ([9] : List Nat).length) = ([9] : List Nat).length) :=
  ⟨by norm_num, obfuscate_padding_and_length obfRandZero [9] (by norm_num)⟩

/-- C7 counterexample: for a `2 ^ 32`-byte payload the frame's length
field decodes to `0`, not to the exact byte length of the payload. -/
theorem obfuscate_length_field_cex :
    obfuscatePacket obfRandZero (List.replicate (2 ^ 32) 1) =
      obfPrefix obfRandZero ++ beBytes4 (List.replicate (2 ^ 32) (1 : Nat)).length ++
        List.replicate (2 ^ 32) 1 ++ obfPadding obfRandZero ∧
    beUint32 (beBytes4 (List.replicate (2 ^ 32) (1 : Nat)).length) ≠
      (List.replicate (2 ^ 32) (1 : Nat)).length := by
  refine ⟨rfl, ?_⟩
  rw [beUint32_beBytes4]
  simp only [List.length_replicate, Nat.mod_self]
  norm_num

/-- C6: `DeobfuscatePacket` is total: it fails with a format error when
the first terminator is missing, when the second terminator is missing,
when fewer than 4 bytes remain for the length field, or when the declared
big-endian length exceeds the remaining bytes; otherwise it returns
exactly the declared number of payload bytes and discards the rest. -/
theorem deobfuscate_spec (obf : List Nat) :
    (indexOfPat crlf2 obf = none →
      deobfuscatePacket obf = .error "invalid packet format") ∧
    (∀ h, indexOfPat crlf2 obf = some h →
      (indexOfPat crlf2 (obf.drop (h + 4)) = none →
        deobfuscatePacket obf = .error "invalid WebSocket format") ∧
      (∀ w, indexOfPat crlf2 (obf.drop (h + 4)) = some w →
        (((obf.drop (h + 4)).drop (w + 4)).length < 4 →
          deobfuscatePacket obf = .error "packet too short") ∧
        (4 ≤ ((obf.drop (h + 4)).drop (w + 4)).length →
          ((((obf.drop (h + 4)).drop (w + 4)).drop 4).length <
              beUint32 (((obf.drop (h + 4)).drop (w + 4)).take 4) →
            deobfuscatePacket obf = .error "incomplete packet") ∧
          (beUint32 (((obf.drop (h + 4)).drop (w + 4)).take 4) ≤
              (((obf.drop (h + 4)).drop (w + 4)).drop 4).length →
            deobfuscatePacket obf =
              .ok ((((obf.drop (h + 4)).drop (w + 4)).drop 4).take
                (beUint32 (((obf.drop (h + 4)).drop (w + 4)).take 4))) ∧
            ((((obf.drop (h + 4)).drop (w + 4)).drop 4).take
                (beUint32 (((obf.drop (h + 4)).drop (w + 4)).take 4))).length =
              beUint32 (((obf.drop (h + 4)).drop (w + 4)).take 4))))) := by
  constructor
  · intro hnone
    rw [deobfuscatePacket.eq_def, hnone]
  · intro h hsome
    constructor
    · intro hnone2
      rw [deobfuscatePacket.eq_def, hsome]
      simp only []
      rw [hnone2]
    · intro w hsome2
      constructor
      · intro hshort
        rw [deobfuscatePacket.eq_def, hsome]
        simp only []
        rw [hsome2]
        simp only []
        rw [if_pos hshort]
      · intro hlong
        constructor
        · intro hdecl
          rw [deobfuscatePacket.eq_def, hsome]
          simp only []
          rw [hsome2]
          simp only []
          rw [if_neg (by omega), if_pos hdecl]
        · intro hfits
          constructor
          · rw [deobfuscatePacket.eq_def, hsome]
            simp only []
            rw [hsome2]
            simp only []
            rw [if_neg (by omega), if_neg (by omega)]
          · rw [List.length_take]
            omega

/-- Witness for `deobfuscate_spec` at a concrete malformed frame. -/
theorem deobfuscate_spec_witness :
    indexOfPat crlf2 [] = none ∧
      deobfuscatePacket [] = .error "invalid packet format" :=
  ⟨rfl, (deobfuscate_spec []).1 rfl⟩

/-! ## SHA-256, HMAC, HKDF (the hash stack behind the `hkdf.New` calls;
RFC 6234 semantics for `crypto/sha256`, external to this repository). -/

/-- Truncation to a 32-bit word. -/
def w32 (n : Nat) : Nat := n % 2 ^ 32

/-- Right rotation of a 32-bit word. -/
def rotr32 (x n : Nat) : Nat := w32 (x >>> n ||| x <<< (32 - n))

/-- Left rotation of a 32-bit word. -/
def rotl32 (x n : Nat) : Nat := w32 (x <<< n ||| x >>> (32 - n))

/-- The eight 32-bit words of SHA-256 state. -/
structure Sha256St where
  a : Nat
  b : Nat
  c : Nat
  d : Nat
  e : Nat
  f : Nat
  g : Nat
  h : Nat

/-- SHA-256 initial state. -/
def sha256IV : Sha256St :=
  ⟨1779033703, 3144134277, 1013904242, 2773480762,
   1359893119, 2600822924, 528734635, 1541459225⟩

/-- SHA-256 round constants. -/
def sha256K : List Nat :=
    [1116352408, 1899447441, 3049323471, 3921009573,
   961987163, 1508970993, 2453635748, 2870763221,
   3624381080, 310598401, 607225278, 1426881987,
   1925078388, 2162078206, 2614888103, 3248222580,
   3835390401, 4022224774, 264347078, 604807628,
   770255983, 1249150122, 1555081692, 1996064986,
   2554220882, 2821834349, 2952996808, 3210313671,
   3336571891, 3584528711, 113926993, 338241895,
   666307205, 773529912, 1294757372, 1396182291,
   1695183700, 1986661051, 2177026350, 2456956037,
   2730485921, 2820302411, 3259730800, 3345764771,
   3516065817, 3600352804, 4094571909, 275423344,
   430227734, 506948616, 659060556, 883997877,
   958139571, 1322822218, 1537002063, 1747873779,
   1955562222, 2024104815, 2227730452, 2361852424,
   2428436474, 2756734187, 3204031479, 3329325298]

/-- SHA-256 message schedule of one 64-byte block. -/
def sha256Sched (block : List Nat) : List Nat :=
  (List.range 64).foldl (fun W t =>
    if t < 16 then
      W ++ [block.getD (4 * t) 0 * 2 ^ 24 + block.getD (4 * t + 1) 0 * 2 ^ 16 +
        block.getD (4 * t + 2) 0 * 2 ^ 8 + block.getD (4 * t + 3) 0]
    else
      let x15 := W.getD (t - 15) 0
      let x2 := W.getD (t - 2) 0
      let s0 := rotr32 x15 7 ^^^ rotr32 x15 18 ^^^ (x15 >>> 3)
      let s1 := rotr32 x2 17 ^^^ rotr32 x2 19 ^^^ (x2 >>> 10)
      W ++ [w32 (W.getD (t - 16) 0 + s0 + W.getD (t - 7) 0 + s1)]) []

/-- One SHA-256 compression round. -/
def sha256Round (st : Sha256St) (k w : Nat) : Sha256St :=
  let s1 := rotr32 st.e 6 ^^^ rotr32 st.e 11 ^^^ rotr32 st.e 25
  let ch := (st.e &&& st.f) ^^^ ((st.e ^^^ 0xffffffff) &&& st.g)
  let t1 := w32 (st.h + s1 + ch + k + w)
  let s0 := rotr32 st.a 2 ^^^ rotr32 st.a 13 ^^^ rotr32 st.a 22
  let maj := (st.a &&& st.b) ^^^ (st.a &&& st.c) ^^^ (st.b &&& st.c)
  let t2 := w32 (s0 + maj)
  ⟨w32 (t1 + t2), st.a, st.b, st.c, w32 (st.d + t1), st.e, st.f, st.g⟩

/-- SHA-256 compression of one 64-byte block into the running state. -/
def sha256Compress (st : Sha256St) (block : List Nat) : Sha256St :=
  let W := sha256Sched block
  let fin := (List.range 64).foldl
    (fun s t => sha256Round s (sha256K.getD t 0) (W.getD t 0)) st
  ⟨w32 (st.a + fin.a), w32 (st.b + fin.b), w32 (st.c + fin.c), w32 (st.d + fin.d),
   w32 (st.e + fin.e), w32 (st.f + fin.f), w32 (st.g + fin.g), w32 (st.h + fin.h)⟩

/-- Big-endian 8-byte encoding (the SHA-256 bit-length trailer). -/
def beBytes8 (n : Nat) : List Nat :=
  [n / 2 ^ 56 % 256, n / 2 ^ 48 % 256, n / 2 ^ 40 % 256, n / 2 ^ 32 % 256,
   n / 2 ^ 24 % 256, n / 2 ^ 16 % 256, n / 2 ^ 8 % 256, n % 256]

/-- SHA-256 padding: `0x80`, zeros to 56 mod 64, 8-byte big-endian bit length. -/
def sha256Pad (msg : List Nat) : List Nat :=
  msg ++ [128] ++ List.replicate ((64 - (msg.length + 9) % 64) % 64) 0 ++
    beBytes8 (8 * msg.length)

/-- SHA-256 of a byte string. -/
def sha256 (msg : List Nat) : List Nat :=
  let padded := sha256Pad msg
  let st := (List.range (padded.length / 64)).foldl
    (fun s i => sha256Compress s ((padded.drop (64 * i)).take 64)) sha256IV
  beBytes4 st.a ++ beBytes4 st.b ++ beBytes4 st.c ++ beBytes4 st.d ++
    beBytes4 st.e ++ beBytes4 st.f ++ beBytes4 st.g ++ beBytes4 st.h

theorem sha256_length (msg : List Nat) : (sha256 msg).length = 32 := by
  simp [sha256, beBytes4]

/-- HMAC-SHA256 (`crypto/hmac` semantics: long keys are hashed first,
keys are zero-padded to the 64-byte block size). -/
def hmacSha256 (key msg : List Nat) : List Nat :=
  let k0 := if 64 < key.length then sha256 key else key
  let kp := k0 ++ List.replicate (64 - k0.length) 0
  let ipad := kp.map (fun b => b ^^^ 0x36)
  let opad := kp.map (fun b => b ^^^ 0x5c)
  sha256 (opad ++ sha256 (ipad ++ msg))

theorem hmacSha256_length (key msg : List Nat) : (hmacSha256 key msg).length = 32 :=
  sha256_length _

/-- The first 32 bytes read from `hkdf.New(sha256.New, secret, salt, info)`:
HKDF extract (`prk = HMAC(salt, secret)`) followed by the first expand
block `T(1) = HMAC(prk, info || 0x01)`, which is exactly 32 bytes. -/
def hkdf32 (secret salt info : List Nat) : List Nat :=
  hmacSha256 (hmacSha256 salt secret) (info ++ [1])

theorem hkdf32_length (secret salt info : List Nat) :
    (hkdf32 secret salt info).length = 32 :=
  sha256_length _

/-! ## ChaCha20-Poly1305 (`golang.org/x/crypto/chacha20poly1305`,
external to this repository; RFC 8439 semantics). -/

/-- Little-endian 32-bit word `i` of a byte string. -/
def leWord (l : List Nat) (i : Nat) : Nat :=
  l.getD (4 * i) 0 + l.getD (4 * i + 1) 0 * 2 ^ 8 +
    l.getD (4 * i + 2) 0 * 2 ^ 16 + l.getD (4 * i + 3) 0 * 2 ^ 24

/-- One ChaCha quarter round on state words `a b c d`. -/
def chachaQR (st : List Nat) (a b c d : Nat) : List Nat :=
  let xa := w32 (st.getD a 0 + st.getD b 0)
  let xd := rotl32 (st.getD d 0 ^^^ xa) 16
  let xc := w32 (st.getD c 0 + xd)
  let xb := rotl32 (st.getD b 0 ^^^ xc) 12
  let ya := w32 (xa + xb)
  let yd := rotl32 (xd ^^^ ya) 8
  let yc := w32 (xc + yd)
  let yb := rotl32 (xb ^^^ yc) 7
  (((st.set a ya).set b yb).set c yc).set d yd

/-- The initial ChaCha20 state for a key, nonce and block counter. -/
def chachaInit (key nonce : List Nat) (ctr : Nat) : List Nat :=
  [0x61707865, 0x3320646e, 0x79622d32, 0x6b206574] ++
    (List.range 8).map (leWord key) ++ [w32 ctr] ++ (List.range 3).map (leWord nonce)

/-- The 20 ChaCha rounds (10 double rounds). -/
def chachaRounds (st : List Nat) : List Nat :=
  (List.range 10).foldl (fun s _ =>
    let s := chachaQR s 0 4 8 12
    let s := chachaQR s 1 5 9 13
    let s := chachaQR s 2 6 10 14
    let s := chachaQR s 3 7 11 15
    let s := chachaQR s 0 5 10 15
    let s := chachaQR s 1 6 11 12
    let s := chachaQR s 2 7 8 13
    chachaQR s 3 4 9 14) st

/-- One 64-byte ChaCha20 keystream block. -/
def chachaBlock (key nonce : List Nat) (ctr : Nat) : List Nat :=
  let init := chachaInit key nonce ctr
  let fin := chachaRounds init
  (List.range 16).foldl
    (fun acc i => acc ++ encodeLE 4 (w32 (init.getD i 0 + fin.getD i 0))) []

/-- The first `n` ChaCha20 keystream bytes for payload encryption
(block counter starts at 1; block 0 keys Poly1305). -/
def chachaStream (key nonce : List Nat) (n : Nat) : List Nat :=
  (List.range n).map (fun i => (chachaBlock key nonce (1 + i / 64)).getD (i % 64) 0)

/-- Poly1305 MAC over `msg` with a 32-byte one-time key. -/
def poly1305 (key msg : List Nat) : List Nat :=
  let r := decodeLE (key.take 16) &&& 0x0ffffffc0ffffffc0ffffffc0fffffff
  let s := decodeLE ((key.drop 16).take 16)
  let p := 2 ^ 130 - 5
  let acc := (List.range ((msg.length + 15) / 16)).foldl (fun acc i =>
    let blk := (msg.drop (16 * i)).take 16
    ((acc + decodeLE blk + 2 ^ (8 * blk.length)) * r) % p) 0
  encodeLE 16 ((acc + s) % 2 ^ 128)

/-- Zero padding of a buffer to a multiple of 16 bytes. -/
def pad16 (l : List Nat) : List Nat :=
  List.replicate ((16 - l.length % 16) % 16) 0

/-- The Poly1305 input of the AEAD construction for empty associated
data: padded ciphertext, 8-byte AAD length (0), 8-byte ciphertext length. -/
def chachaMacData (ct : List Nat) : List Nat :=
  ct ++ pad16 ct ++ encodeLE 8 0 ++ encodeLE 8 ct.length

/-- The one-time Poly1305 key: first 32 bytes of ChaCha20 block 0. -/
def chachaPolyKey (key nonce : List Nat) : List Nat :=
  (chachaBlock key nonce 0).take 32

/-- The AEAD tag of a ChaCha20-Poly1305 ciphertext. -/
def chachaTag (key nonce ct : List Nat) : List Nat :=
  poly1305 (chachaPolyKey key nonce) (chachaMacData ct)

/-- `chacha20poly1305.Seal` (empty AAD): ciphertext then 16-byte tag. -/
def chachaSeal (key nonce pt : List Nat) : List Nat :=
  let ct := xorBytes pt (chachaStream key nonce pt.length)
  ct ++ chachaTag key nonce ct

/-- The error value of `chacha20poly1305.Open`. -/
def chachaOpenErr : String := "chacha20poly1305: message authentication failed"

/-- `chacha20poly1305.Open` (empty AAD): recompute and check the tag,
then decrypt; fails on short input or tag mismatch. -/
def chachaOpen (key nonce c : List Nat) : Except String (List Nat) :=
  if c.length < 16 then .error chachaOpenErr
  else
    let ct := c.take (c.length - 16)
    let tag := c.drop (c.length - 16)
    if chachaTag key nonce ct = tag then
      .ok (xorBytes ct (chachaStream key nonce ct.length))
    else .error chachaOpenErr

/-! ## AES-256-GCM (`crypto/aes` + `crypto/cipher.NewGCM`, external to
this repository; FIPS-197 / SP 800-38D semantics).  The S-box is computed
from its definition (inversion in GF(2^8) plus the affine map). -/

/-- Doubling in GF(2^8) modulo the AES polynomial. -/
def xtime (b : Nat) : Nat :=
  if b * 2 < 256 then b * 2 else (b * 2) ^^^ 0x11b

/-- Multiplication in GF(2^8). -/
def gf8mul (a b : Nat) : Nat :=
  ((List.range 8).foldl
    (fun acc i => (if b >>> i &&& 1 = 1 then acc.1 ^^^ acc.2 else acc.1, xtime acc.2))
    (0, a)).1

/-- Inversion in GF(2^8) as `b ^ 254` (maps 0 to 0). -/
def gf8inv (b : Nat) : Nat :=
  (List.range 253).foldl (fun acc _ => gf8mul acc b) b

/-- Left rotation of a byte. -/
def rotl8 (x n : Nat) : Nat := (x <<< n ||| x >>> (8 - n)) % 256

/-- The AES S-box. -/
def sbox (b : Nat) : Nat :=
  let q := gf8inv b
  q ^^^ rotl8 q 1 ^^^ rotl8 q 2 ^^^ rotl8 q 3 ^^^ rotl8 q 4 ^^^ 0x63

/-- Byte `i` (0 = most significant) of a 32-bit word. -/
def wbyte (w i : Nat) : Nat := w >>> (8 * (3 - i)) &&& 255

/-- S-box substitution on each byte of a word. -/
def subWord (w : Nat) : Nat :=
  sbox (wbyte w 0) * 2 ^ 24 + sbox (wbyte w 1) * 2 ^ 16 +
    sbox (wbyte w 2) * 2 ^ 8 + sbox (wbyte w 3)

/-- The AES round constant `rcon(j)`. -/
def rcon (j : Nat) : Nat :=
  (List.range (j - 1)).foldl (fun acc _ => xtime acc) 1

/-- AES-256 key expansion: 60 round-key words from a 32-byte key. -/
def aes256ExpandKey (key : List Nat) : List Nat :=
  (List.range 60).foldl (fun ws i =>
    if i < 8 then
      ws ++ [key.getD (4 * i) 0 * 2 ^ 24 + key.getD (4 * i + 1) 0 * 2 ^ 16 +
        key.getD (4 * i + 2) 0 * 2 ^ 8 + key.getD (4 * i + 3) 0]
    else
      let temp := ws.getD (i - 1) 0
      let temp :=
        if i % 8 = 0 then subWord (rotl32 temp 8) ^^^ (rcon (i / 8) * 2 ^ 24)
        else if i % 8 = 4 then subWord temp
        else temp
      ws ++ [ws.getD (i - 8) 0 ^^^ temp]) []

/-- S-box substitution on the 16-byte state. -/
def subBytes (st : List Nat) : List Nat := st.map sbox

/-- The AES ShiftRows permutation (state bytes in column-major order). -/
def shiftRows (st : List Nat) : List Nat :=
  (List.range 16).map (fun i => st.getD ((i + 4 * (i % 4)) % 16) 0)

/-- MixColumns on one column. -/
def mixOneColumn (a0 a1 a2 a3 : Nat) : List Nat :=
  [gf8mul 2 a0 ^^^ gf8mul 3 a1 ^^^ a2 ^^^ a3,
   a0 ^^^ gf8mul 2 a1 ^^^ gf8mul 3 a2 ^^^ a3,
   a0 ^^^ a1 ^^^ gf8mul 2 a2 ^^^ gf8mul 3 a3,
   gf8mul 3 a0 ^^^ a1 ^^^ a2 ^^^ gf8mul 2 a3]

/-- MixColumns on the 16-byte state. -/
def mixColumns (st : List Nat) : List Nat :=
  (List.range 4).foldl (fun acc c =>
    acc ++ mixOneColumn (st.getD (4 * c) 0) (st.getD (4 * c + 1) 0)
      (st.getD (4 * c + 2) 0) (st.getD (4 * c + 3) 0)) []

/-- The 16 bytes of round key `round` from the expanded key words. -/
def roundKeyBytes (ws : List Nat) (round : Nat) : List Nat :=
  (List.range 16).map (fun i => wbyte (ws.getD (4 * round + i / 4) 0) (i % 4))

/-- AddRoundKey. -/
def addRoundKey (st rk : List Nat) : List Nat := xorBytes st rk

/-- The AES-256 block cipher (14 rounds) on a 16-byte block. -/
def aesBlock (key block : List Nat) : List Nat :=
  let ws := aes256ExpandKey key
  let st0 := addRoundKey block (roundKeyBytes ws 0)
  let stm := (List.range 13).foldl (fun s r =>
    addRoundKey (mixColumns (shiftRows (subBytes s))) (roundKeyBytes ws (r + 1))) st0
  addRoundKey (shiftRows (subBytes stm)) (roundKeyBytes ws 14)

/-- Big-endian 16-byte encoding of a 128-bit block value. -/
def beBytes16 (n : Nat) : List Nat :=
  (List.range 16).map (fun i => n / 2 ^ (8 * (15 - i)) % 256)

/-- A 16-byte block as a 128-bit big-endian value. -/
def beBlock (l : List Nat) : Nat :=
  l.foldl (fun acc b => acc * 256 + b) 0

/-- Multiplication in GF(2^128) with the GCM bit order and polynomial. -/
def gf128mul (x y : Nat) : Nat :=
  ((List.range 128).foldl (fun acc i =>
    let z := if y >>> (127 - i) &&& 1 = 1 then acc.1 ^^^ acc.2 else acc.1
    let v := if acc.2 &&& 1 = 1 then (acc.2 >>> 1) ^^^ (0xe1 <<< 120) else acc.2 >>> 1
    (z, v)) (0, x)).1

/-- GHASH over zero-padded 16-byte blocks. -/
def ghash (h : Nat) (data : List Nat) : Nat :=
  (List.range ((data.length + 15) / 16)).foldl (fun acc i =>
    gf128mul (acc ^^^ beBlock ((data.drop (16 * i)).take 16)) h) 0

/-- The first `n` AES-CTR keystream bytes of GCM payload encryption
(counter blocks `nonce || 2`, `nonce || 3`, ...). -/
def gcmStream (key nonce : List Nat) (n : Nat) : List Nat :=
  (List.range n).map (fun i =>
    (aesBlock key (nonce ++ beBytes4 (2 + i / 16))).getD (i % 16) 0)

/-- The GHASH input of GCM for empty associated data. -/
def gcmMacData (ct : List Nat) : List Nat :=
  ct ++ pad16 ct ++ beBytes8 0 ++ beBytes8 (8 * ct.length)

/-- The GCM authentication tag of a ciphertext. -/
def gcmTag (key nonce ct : List Nat) : List Nat :=
  let h := beBlock (aesBlock key (List.replicate 16 0))
  xorBytes (beBytes16 (ghash h (gcmMacData ct))) (aesBlock key (nonce ++ beBytes4 1))

/-- `gcm.Seal` (empty AAD): ciphertext then 16-byte tag. -/
def gcmSeal (key nonce pt : List Nat) : List Nat :=
  let ct := xorBytes pt (gcmStream key nonce pt.length)
  ct ++ gcmTag key nonce ct

/-- The error value of `cipher.AEAD.Open` for GCM. -/
def gcmOpenErr : String := "cipher: message authentication failed"

/-- `gcm.Open` (empty AAD): recompute and check the tag, then decrypt;
fails on short input or tag mismatch. -/
def gcmOpen (key nonce c : List Nat) : Except String (List Nat) :=
  if c.length < 16 then .error gcmOpenErr
  else
    let ct := c.take (c.length - 16)
    let tag := c.drop (c.length - 16)
    if gcmTag key nonce ct = tag then
      .ok (xorBytes ct (gcmStream key nonce ct.length))
    else .error gcmOpenErr

/-! ## Encryption engines (`src/unnamed/part_001`) -/

/-- A fresh random 12-byte nonce (`rand.Reader` modelled by a draw
function). -/
def nonceOf (nf : Nat → Nat) : List Nat :=
  (List.range 12).map (fun i => nf i % 256)

/-- `NewEncryptionEngine` (ChaCha20-Poly1305): requires a 32-byte key;
the engine state is its key. -/
def newEncryptionEngine (key : List Nat) : Except String (List Nat) :=
  if key.length = 32 then .ok key else .error "key must be 32 bytes"

/-- `NewAESEngine` (AES-256-GCM): requires a 32-byte key. -/
def newAESEngine (key : List Nat) : Except String (List Nat) :=
  if key.length = 32 then .ok key else .error "key must be 32 bytes"

/-- `EncryptionEngine.Encrypt`: fresh random nonce prepended to the
ChaCha20-Poly1305 sealed payload. -/
def engineEncryptChacha (key : List Nat) (nf : Nat → Nat) (pt : List Nat) : List Nat :=
  let nonce := nonceOf nf
  nonce ++ chachaSeal key nonce pt

/-- `EncryptionEngine.Decrypt`: split nonce, then open. -/
def engineDecryptChacha (key c : List Nat) : Except String (List Nat) :=
  if c.length < 12 then .error "ciphertext too short"
  else chachaOpen key (c.take 12) (c.drop 12)

/-- `AESEngine.Encrypt`: fresh random nonce prepended to the GCM sealed
payload. -/
def engineEncryptAes (key : List Nat) (nf : Nat → Nat) (pt : List Nat) : List Nat :=
  let nonce := nonceOf nf
  nonce ++ gcmSeal key nonce pt

/-- `AESEngine.Decrypt`: split nonce, then open. -/
def engineDecryptAes (key c : List Nat) : Except String (List Nat) :=
  if c.length < 12 then .error "ciphertext too short"
  else gcmOpen key (c.take 12) (c.drop 12)

/-- `MultiLayerEncryption`: the two sub-engines, represented by their
derived sub-keys. -/
structure MultiLayerEncryption where
  chachaKey : List Nat
  aesKey : List Nat

/-- HKDF salt of the first layer. -/
def mleSalt1 : List Nat := strBytes "StealthVPN-ChaCha20"

/-- HKDF salt of the second layer. -/
def mleSalt2 : List Nat := strBytes "StealthVPN-AES256"

/-- `NewMultiLayerEncryption`: derive the two 32-byte sub-keys by HKDF
from the master key, then build both engines. -/
def newMultiLayerEncryption (key : List Nat) : Except String MultiLayerEncryption := do
  let key1 := hkdf32 key mleSalt1 (strBytes "layer1")
  let key2 := hkdf32 key mleSalt2 (strBytes "layer2")
  let ck ← newEncryptionEngine key1
  let ak ← newAESEngine key2
  return ⟨ck, ak⟩

/-- The two random nonce draws of one `MultiLayerEncryption.Encrypt`. -/
structure EncRand where
  chachaNonce : Nat → Nat
  aesNonce : Nat → Nat

/-- `MultiLayerEncryption.Encrypt`: ChaCha20-Poly1305 first, then
AES-256-GCM over the entire first-layer output. -/
def mleEncrypt (m : MultiLayerEncryption) (r : EncRand) (pt : List Nat) : List Nat :=
  engineEncryptAes m.aesKey r.aesNonce (engineEncryptChacha m.chachaKey r.chachaNonce pt)

/-- `MultiLayerEncryption.Decrypt`: AES-256-GCM open first, then
ChaCha20-Poly1305 open; any failure aborts with that error. -/
def mleDecrypt (m : MultiLayerEncryption) (c : List Nat) : Except String (List Nat) :=
  match engineDecryptAes m.aesKey c with
  | .error e => .error e
  | .ok d => engineDecryptChacha m.chachaKey d

/-! ## Round-trip lemmas for the engines -/

theorem xorBytes_length (a b : List Nat) :
    (xorBytes a b).length = min a.length b.length := by
  simp [xorBytes]

theorem xorBytes_cancel (p s : List Nat) (h : s.length = p.length) :
    xorBytes (xorBytes p s) s = p := by
  induction p generalizing s with
  | nil =>
    cases s with
    | nil => rfl
    | cons b t => simp at h
  | cons a p ih =>
    cases s with
    | nil => simp at h
    | cons b t =>
      simp only [List.length_cons] at h
      simp only [xorBytes, List.zipWith_cons_cons]
      rw [show (a ^^^ b) ^^^ b = a by rw [Nat.xor_assoc, Nat.xor_self, Nat.xor_zero]]
      have := ih t (by omega)
      simp only [xorBytes] at this
      rw [this]

theorem chachaStream_length (key nonce : List Nat) (n : Nat) :
    (chachaStream key nonce n).length = n := by
  simp [chachaStream]

theorem gcmStream_length (key nonce : List Nat) (n : Nat) :
    (gcmStream key nonce n).length = n := by
  simp [gcmStream]

theorem encodeLE_length (k n : Nat) : (encodeLE k n).length = k := by
  induction k generalizing n with
  | zero => rfl
  | succ k ih => simp [encodeLE, ih]

theorem chachaTag_length (key nonce ct : List Nat) :
    (chachaTag key nonce ct).length = 16 := by
  simp [chachaTag, poly1305, encodeLE_length]

theorem shiftRows_length (st : List Nat) : (shiftRows st).length = 16 := by
  simp [shiftRows]

theorem roundKeyBytes_length (ws : List Nat) (round : Nat) :
    (roundKeyBytes ws round).length = 16 := by
  simp [roundKeyBytes]

theorem aesBlock_length (key block : List Nat) : (aesBlock key block).length = 16 := by
  simp [aesBlock, addRoundKey, xorBytes_length, shiftRows_length, roundKeyBytes_length]

theorem beBytes16_length (n : Nat) : (beBytes16 n).length = 16 := by
  simp [beBytes16]

theorem gcmTag_length (key nonce ct : List Nat) :
    (gcmTag key nonce ct).length = 16 := by
  simp [gcmTag, xorBytes_length, beBytes16_length, aesBlock_length]

theorem nonceOf_length (nf : Nat → Nat) : (nonceOf nf).length = 12 := by
  simp [nonceOf]

theorem chachaOpen_seal (key nonce pt : List Nat) :
    chachaOpen key nonce (chachaSeal key nonce pt) = .ok pt := by
  have hsl : (chachaStream key nonce pt.length).length = pt.length :=
    chachaStream_length key nonce pt.length
  have hct : (xorBytes pt (chachaStream key nonce pt.length)).length = pt.length := by
    rw [xorBytes_length, hsl]
    omega
  have hlen : (chachaSeal key nonce pt).length = pt.length + 16 := by
    simp only [chachaSeal, List.length_append, hct, chachaTag_length]
  rw [chachaOpen, if_neg (by omega)]
  have hsub : (chachaSeal key nonce pt).length - 16 = pt.length := by omega
  rw [hsub]
  have htake : (chachaSeal key nonce pt).take pt.length
      = xorBytes pt (chachaStream key nonce pt.length) := by
    rw [chachaSeal]
    exact List.take_left' hct
  have hdrop : (chachaSeal key nonce pt).drop pt.length
      = chachaTag key nonce (xorBytes pt (chachaStream key nonce pt.length)) := by
    rw [chachaSeal]
    exact List.drop_left' hct
  rw [htake, hdrop, if_pos rfl, hct, xorBytes_cancel _ _ (by rw [hsl])]

theorem gcmOpen_seal (key nonce pt : List Nat) :
    gcmOpen key nonce (gcmSeal key nonce pt) = .ok pt := by
  have hsl : (gcmStream key nonce pt.length).length = pt.length :=
    gcmStream_length key nonce pt.length
  have hct : (xorBytes pt (gcmStream key nonce pt.length)).length = pt.length := by
    rw [xorBytes_length, hsl]
    omega
  have hlen : (gcmSeal key nonce pt).length = pt.length + 16 := by
    simp only [gcmSeal, List.length_append, hct, gcmTag_length]
  rw [gcmOpen, if_neg (by omega)]
  have hsub : (gcmSeal key nonce pt).length - 16 = pt.length := by omega
  rw [hsub]
  have htake : (gcmSeal key nonce pt).take pt.length
      = xorBytes pt (gcmStream key nonce pt.length) := by
    rw [gcmSeal]
    exact List.take_left' hct
  have hdrop : (gcmSeal key nonce pt).drop pt.length
      = gcmTag key nonce (xorBytes pt (gcmStream key nonce pt.length)) := by
    rw [gcmSeal]
    exact List.drop_left' hct
  rw [htake, hdrop, if_pos rfl, hct, xorBytes_cancel _ _ (by rw [hsl])]

theorem engineDecryptChacha_encrypt (key : List Nat) (nf : Nat → Nat) (pt : List Nat) :
    engineDecryptChacha key (engineEncryptChacha key nf pt) = .ok pt := by
  have hlen : (engineEncryptChacha key nf pt).length
      = 12 + (chachaSeal key (nonceOf nf) pt).length := by
    simp [engineEncryptChacha, nonceOf_length]
  rw [engineDecryptChacha, if_neg (by omega)]
  have htake : (engineEncryptChacha key nf pt).take 12 = nonceOf nf := by
    rw [engineEncryptChacha]
    exact List.take_left' (nonceOf_length nf)
  have hdrop : (engineEncryptChacha key nf pt).drop 12 = chachaSeal key (nonceOf nf) pt := by
    rw [engineEncryptChacha]
    exact List.drop_left' (nonceOf_length nf)
  rw [htake, hdrop, chachaOpen_seal]

theorem engineDecryptAes_encrypt (key : List Nat) (nf : Nat → Nat) (pt : List Nat) :
    engineDecryptAes key (engineEncryptAes key nf pt) = .ok pt := by
  have hlen : (engineEncryptAes key nf pt).length
      = 12 + (gcmSeal key (nonceOf nf) pt).length := by
    simp [engineEncryptAes, nonceOf_length]
  rw [engineDecryptAes, if_neg (by omega)]
  have htake : (engineEncryptAes key nf pt).take 12 = nonceOf nf := by
    rw [engineEncryptAes]
    exact List.take_left' (nonceOf_length nf)
  have hdrop : (engineEncryptAes key nf pt).drop 12 = gcmSeal key (nonceOf nf) pt := by
    rw [engineEncryptAes]
    exact List.drop_left' (nonceOf_length nf)
  rw [htake, hdrop, gcmOpen_seal]

theorem newMultiLayerEncryption_eq (key : List Nat) :
    newMultiLayerEncryption key =
      .ok ⟨hkdf32 key mleSalt1 (strBytes "layer1"), hkdf32 key mleSalt2 (strBytes "layer2")⟩ := by
  rw [newMultiLayerEncryption]
  rw [newEncryptionEngine, if_pos (hkdf32_length _ _ _)]
  rw [newAESEngine, if_pos (hkdf32_length _ _ _)]
  rfl

/-- C3: for every byte sequence `P`, every master key `K` (in particular
every 32-byte one) and every random nonce choice made during `Encrypt`,
the `MultiLayerEncryption` built from `K` satisfies
`Decrypt (Encrypt P) = P` with no error. -/
theorem mle_roundtrip (key : List Nat) (r : EncRand) (pt : List Nat) :
    ∃ m, newMultiLayerEncryption key = .ok m ∧
      mleDecrypt m (mleEncrypt m r pt) = .ok pt := by
  refine ⟨_, newMultiLayerEncryption_eq key, ?_⟩
  rw [mleEncrypt, mleDecrypt.eq_def, engineDecryptAes_encrypt]
  simp only []
  rw [engineDecryptChacha_encrypt]

/-- C5: `MultiLayerEncryption.Encrypt` is exactly the AES-256-GCM engine
applied to the entire ChaCha20-Poly1305 engine output; `Decrypt` opens
the AES layer first and the ChaCha layer second, and any layer's failure
aborts decryption with that error and no plaintext bytes. -/
theorem mle_layering (m : MultiLayerEncryption) (r : EncRand) (pt c d : List Nat)
    (e : String) :
    mleEncrypt m r pt =
      engineEncryptAes m.aesKey r.aesNonce
        (engineEncryptChacha m.chachaKey r.chachaNonce pt) ∧
    (engineDecryptAes m.aesKey c = .error e → mleDecrypt m c = .error e) ∧
    (engineDecryptAes m.aesKey c = .ok d →
      mleDecrypt m c = engineDecryptChacha m.chachaKey d) ∧
    (engineDecryptAes m.aesKey c = .ok d → engineDecryptChacha m.chachaKey d = .error e →
      mleDecrypt m c = .error e) := by
  refine ⟨rfl, ?_, ?_, ?_⟩
  · intro h
    rw [mleDecrypt.eq_def, h]
  · intro h
    rw [mleDecrypt.eq_def, h]
  · intro h1 h2
    rw [mleDecrypt.eq_def, h1]
    simp only []
    exact h2

/-- A concrete engine pair for the `mle_layering` witness. -/
def mleTest : MultiLayerEncryption :=
  ⟨List.replicate 32 1, List.replicate 32 2⟩

/-- Witness for `mle_layering`: a too-short ciphertext fails the AES
layer and `Decrypt` propagates exactly that error. -/
theorem mle_layering_witness :
    engineDecryptAes mleTest.aesKey [] = .error "ciphertext too short" ∧
      mleDecrypt mleTest [] = .error "ciphertext too short" := by
  have h : engineDecryptAes mleTest.aesKey [] = .error "ciphertext too short" := rfl
  exact ⟨h,
    (mle_layering mleTest ⟨fun _ => 0, fun _ => 0⟩ [] [] [] "ciphertext too short").2.1 h⟩

/-- `NewVPNServer`'s encryption setup: the raw pre-shared-key string's
bytes are passed directly as the master key (`src/unnamed/part_004`). -/
def newVPNServerEncryption (psk : String) : Except String MultiLayerEncryption :=
  newMultiLayerEncryption (strBytes psk)

/-- C10: for a master key of any length, the HKDF expansion yields two
exactly-32-byte sub-keys, so `NewMultiLayerEncryption` always succeeds —
in particular on the raw pre-shared-key string of arbitrary length that
the server passes in. -/
theorem newMultiLayer_total (key : List Nat) (psk : String) :
    (hkdf32 key mleSalt1 (strBytes "layer1")).length = 32 ∧
    (hkdf32 key mleSalt2 (strBytes "layer2")).length = 32 ∧
    (∃ m, newMultiLayerEncryption key = .ok m) ∧
    (∃ m, newVPNServerEncryption psk = .ok m) :=
  ⟨hkdf32_length _ _ _, hkdf32_length _ _ _,
   ⟨_, newMultiLayerEncryption_eq key⟩, ⟨_, newMultiLayerEncryption_eq _⟩⟩

/-! ## Key exchange (`src/unnamed/part_001`), with the external
`curve25519.X25519` primitive modelled from the spec -/

/-- The Curve25519 field prime, used as the modulus of the model. -/
def dhPrime : Nat := 2 ^ 255 - 19

/-- Modelled from the spec: the external `curve25519.X25519` scalar
multiplication (`golang.org/x/crypto/curve25519` — not part of this
repository).  The spec relies only on the elliptic-curve Diffie-Hellman
agreement property, so the curve group is modelled abstractly as the
multiplicative group modulo the Curve25519 field prime:
`X25519 k u = u ^ k mod p`, with 32-byte little-endian encodings on both
sides (scalar clamping and the low-order-point error are not modelled;
the model is total). -/
def x25519 (scalar point : List Nat) : List Nat :=
  encodeLE 32 (decodeLE point ^ decodeLE scalar % dhPrime)

/-- `curve25519.Basepoint`: the byte 9 followed by 31 zero bytes. -/
def basepoint32 : List Nat := encodeLE 32 9

/-- `KeyExchange`: an ephemeral key pair. -/
structure KeyExchange where
  privateKey : List Nat
  publicKey : List Nat

/-- `NewKeyExchange`: 32 random private-key bytes, public key
`X25519(privateKey, Basepoint)`. -/
def newKeyExchange (rnd : Nat → Nat) : KeyExchange :=
  let priv := (List.range 32).map (fun i => rnd i % 256)
  ⟨priv, x25519 priv basepoint32⟩

/-- HKDF salt of the session-key derivation. -/
def sessionSalt : List Nat := strBytes "StealthVPN-2024"

/-- HKDF info label of the session-key derivation. -/
def sessionInfo : List Nat := strBytes "session-key"

/-- `KeyExchange.ComputeSharedSecret`: reject a peer public key that is
not exactly 32 bytes; otherwise compute the shared secret and derive the
32-byte session key by HKDF with the fixed salt and label. -/
def computeSharedSecret (kx : KeyExchange) (peer : List Nat) : Except String (List Nat) :=
  if peer.length ≠ 32 then .error "invalid peer public key length"
  else .ok (hkdf32 (x25519 kx.privateKey peer) sessionSalt sessionInfo)

/-- `ComputeSharedSecret` in state-passing form: the Go method reads the
receiver's fields and never assigns to them, so the resulting
`KeyExchange` state is returned unchanged alongside the result. -/
def computeSharedSecretSt (kx : KeyExchange) (peer : List Nat) :
    KeyExchange × Except String (List Nat) :=
  (kx, computeSharedSecret kx peer)

/-- The session state built by the server's `performKeyExchange`
(`src/unnamed/part_004`, lines 268-275): the whole `KeyExchange` object —
private scalar included — is stored in the session. -/
structure ClientSessionKx where
  keyExchange : KeyExchange
  encryption : MultiLayerEncryption

theorem decodeLE_encodeLE (k n : Nat) : decodeLE (encodeLE k n) = n % 256 ^ k := by
  induction k generalizing n with
  | zero => simp [encodeLE, decodeLE, Nat.mod_one]
  | succ k ih =>
    rw [encodeLE, decodeLE, ih,
      show (256 : Nat) ^ (k + 1) = 256 * 256 ^ k by ring, Nat.mod_mul]

theorem x25519_comm (a b : List Nat) :
    x25519 a (x25519 b basepoint32) = x25519 b (x25519 a basepoint32) := by
  have hP : dhPrime < 2 ^ 256 := by norm_num [dhPrime]
  have hPpos : 0 < dhPrime := by norm_num [dhPrime]
  have hbase : decodeLE basepoint32 = 9 := by
    rw [basepoint32, decodeLE_encodeLE]
    norm_num
  have key : ∀ u v : Nat,
      decodeLE (encodeLE 32 (9 ^ u % dhPrime)) ^ v % dhPrime = 9 ^ (u * v) % dhPrime := by
    intro u v
    rw [decodeLE_encodeLE]
    have h2 : 9 ^ u % dhPrime % 256 ^ 32 = 9 ^ u % dhPrime := by
      apply Nat.mod_eq_of_lt
      calc 9 ^ u % dhPrime < dhPrime := Nat.mod_lt _ hPpos
        _ < 2 ^ 256 := hP
        _ = 256 ^ 32 := by norm_num
    rw [h2, ← Nat.pow_mod, ← pow_mul]
  simp only [x25519, hbase]
  rw [key (decodeLE b) (decodeLE a), key (decodeLE a) (decodeLE b), Nat.mul_comm]

/-- C4: for every two independently generated key pairs, the two sides'
`ComputeSharedSecret` calls succeed and return the same 32-byte derived
session key. -/
theorem keyExchange_symmetry (rA rB : Nat → Nat) :
    ∃ k, computeSharedSecret (newKeyExchange rA) (newKeyExchange rB).publicKey = .ok k ∧
      computeSharedSecret (newKeyExchange rB) (newKeyExchange rA).publicKey = .ok k ∧
      k.length = 32 := by
  set A := newKeyExchange rA with hA
  set B := newKeyExchange rB with hB
  have hpA : A.publicKey = x25519 A.privateKey basepoint32 := rfl
  have hpB : B.publicKey = x25519 B.privateKey basepoint32 := rfl
  have hlA : A.publicKey.length = 32 := by
    rw [hpA, x25519]
    exact encodeLE_length 32 _
  have hlB : B.publicKey.length = 32 := by
    rw [hpB, x25519]
    exact encodeLE_length 32 _
  refine ⟨hkdf32 (x25519 A.privateKey B.publicKey) sessionSalt sessionInfo,
    ?_, ?_, hkdf32_length _ _ _⟩
  · rw [computeSharedSecret, if_neg (by omega)]
  · rw [computeSharedSecret, if_neg (by omega)]
    have hcomm : x25519 B.privateKey A.publicKey = x25519 A.privateKey B.publicKey := by
      rw [hpA, hpB]
      exact x25519_comm B.privateKey A.privateKey
    rw [hcomm]

/-! ## The JSON key-exchange handshake (`VPNServer.performKeyExchange`,
`VPNClient.performKeyExchange`) -/

/-- A dynamically typed Go value as it appears around `encoding/json`. -/
inductive GoVal where
  | bytes (b : List Nat)
  | str (s : List Nat)

/-- Standard base64 encoding (how `encoding/json` marshals `[]byte`). -/
def base64Encode (b : List Nat) : List Nat :=
  (List.range ((b.length + 2) / 3)).foldl (fun acc i =>
    let c0 := b.getD (3 * i) 0
    let c1 := b.getD (3 * i + 1) 0
    let c2 := b.getD (3 * i + 2) 0
    acc ++
      [charsetBytes.getD (c0 >>> 2 % 64) 0,
       charsetBytes.getD ((c0 <<< 4 + c1 >>> 4) % 64) 0,
       if 3 * i + 1 < b.length then charsetBytes.getD ((c1 <<< 2 + c2 >>> 6) % 64) 0
       else 61,
       if 3 * i + 2 < b.length then charsetBytes.getD (c2 % 64) 0 else 61]) []

/-- `conn.WriteJSON` then `conn.ReadJSON` into `map[string]interface{}`:
`encoding/json` marshals a `[]byte` field to a base64 JSON string, and
unmarshalling into `interface{}` produces a Go `string` — never a
`[]byte`. -/
def jsonWire : GoVal → GoVal
  | .bytes b => .str (base64Encode b)
  | .str s => .str s

/-- The Go comma-ok type assertion `v.([]byte)`. -/
def asByteSlice : GoVal → Option (List Nat)
  | .bytes b => some b
  | .str _ => none

/-- The key-exchange handshake exactly as the provided client and server
run it: the server sends its public key in a `key_exchange` message, the
client reads the `public_key` field through the JSON wire, asserts it to
`[]byte`, replies with its own key, and each side calls
`ComputeSharedSecret` on what it received. -/
def runHandshake (rS rC : Nat → Nat) : Except String (List Nat × List Nat) :=
  let skx := newKeyExchange rS
  let ckx := newKeyExchange rC
  match asByteSlice (jsonWire (.bytes skx.publicKey)) with
  | none => .error "invalid server public key"
  | some spk =>
    match computeSharedSecret ckx spk with
    | .error e => .error e
    | .ok cShared =>
      match asByteSlice (jsonWire (.bytes ckx.publicKey)) with
      | none => .error "invalid client public key"
      | some cpk =>
        match computeSharedSecret skx cpk with
        | .error e => .error e
        | .ok sShared => .ok (sShared, cShared)

/-- C1 (refuted — code bug): for every run and every randomness, the
handshake fails at the client's `.([]byte)` type assertion, because the
JSON wire delivers the public key as a string; no session keys are ever
derived. -/
theorem handshake_always_fails (rS rC : Nat → Nat) :
    runHandshake rS rC = .error "invalid server public key" := rfl

/-- C8 (refuted — code bug): after `ComputeSharedSecret` succeeds, the
ephemeral private scalar is still retained, unchanged, in the
`KeyExchange` state, and the server's session object stores that
`KeyExchange` as built; nothing is erased. -/
theorem privateKey_retained (rA rB : Nat → Nat) (enc : MultiLayerEncryption) :
    (∃ k, (computeSharedSecretSt (newKeyExchange rA) (newKeyExchange rB).publicKey).2
      = .ok k) ∧
    (computeSharedSecretSt (newKeyExchange rA) (newKeyExchange rB).publicKey).1.privateKey
      = (newKeyExchange rA).privateKey ∧
    (ClientSessionKx.mk (newKeyExchange rA) enc).keyExchange.privateKey
      = (newKeyExchange rA).privateKey := by
  have hlB : (newKeyExchange rB).publicKey.length = 32 := by
    rw [show (newKeyExchange rB).publicKey
      = x25519 (newKeyExchange rB).privateKey basepoint32 from rfl, x25519]
    exact encodeLE_length 32 _
  refine ⟨⟨hkdf32 (x25519 (newKeyExchange rA).privateKey (newKeyExchange rB).publicKey)
    sessionSalt sessionInfo, ?_⟩, rfl, rfl⟩
  rw [show (computeSharedSecretSt (newKeyExchange rA) (newKeyExchange rB).publicKey).2
    = computeSharedSecret (newKeyExchange rA) (newKeyExchange rB).publicKey from rfl]
  rw [computeSharedSecret, if_neg (by omega)]

/-! ## Per-session forwarding loops (`src/unnamed/part_004` lines 278-307,
`src/client/windows/main.go` lines 280-310) -/

/-- One transport read in the server's `handleClientSession` loop. -/
inductive SrvEvent where
  | msg (m : List Nat)
  | readErr

/-- `VPNServer.handleClientSession`, abstracted to the list of decrypted
VPN packets it processes: a transport read error breaks the loop; a frame
whose deobfuscation or decryption fails is dropped (`continue`) and the
loop keeps reading. -/
def handleClientSession (m : MultiLayerEncryption) : List SrvEvent → List (List Nat)
  | [] => []
  | .readErr :: _ => []
  | .msg msg :: rest =>
    match deobfuscatePacket msg with
    | .error _ => handleClientSession m rest
    | .ok deob =>
      match mleDecrypt m deob with
      | .error _ => handleClientSession m rest
      | .ok pkt => pkt :: handleClientSession m rest

/-- One event in the client's `forwardPacketsFromServer` loop: a read
error, or a received frame together with whether the TUN write succeeds. -/
inductive CliEvent where
  | msg (m : List Nat) (tunOk : Bool)
  | readErr

/-- `VPNClient.forwardPacketsFromServer`, abstracted to the packets
delivered to the TUN device: a transport read error stops the loop and
drives disconnection; failed deobfuscation, decryption or TUN writes drop
the single packet and continue. -/
def forwardPacketsFromServer (m : MultiLayerEncryption) : List CliEvent → List (List Nat)
  | [] => []
  | .readErr :: _ => []
  | .msg msg tunOk :: rest =>
    match deobfuscatePacket msg with
    | .error _ => forwardPacketsFromServer m rest
    | .ok deob =>
      match mleDecrypt m deob with
      | .error _ => forwardPacketsFromServer m rest
      | .ok pkt =>
        if tunOk then pkt :: forwardPacketsFromServer m rest
        else forwardPacketsFromServer m rest

/-- C9: in both per-session forwarding loops, a `DeobfuscatePacket` or
`Decrypt` failure on a single frame never terminates the session — the
frame is dropped and the loop continues exactly as if the frame had not
arrived — while a transport read error ends the loop. -/
theorem session_loop_resilient (m : MultiLayerEncryption) (msg : List Nat)
    (rest : List SrvEvent) (crest : List CliEvent) (tunOk : Bool) (e : String) :
    (deobfuscatePacket msg = .error e →
      handleClientSession m (.msg msg :: rest) = handleClientSession m rest) ∧
    (∀ d, deobfuscatePacket msg = .ok d → mleDecrypt m d = .error e →
      handleClientSession m (.msg msg :: rest) = handleClientSession m rest) ∧
    handleClientSession m (.readErr :: rest) = [] ∧
    (deobfuscatePacket msg = .error e →
      forwardPacketsFromServer m (.msg msg tunOk :: crest)
        = forwardPacketsFromServer m crest) ∧
    (∀ d, deobfuscatePacket msg = .ok d → mleDecrypt m d = .error e →
      forwardPacketsFromServer m (.msg msg tunOk :: crest)
        = forwardPacketsFromServer m crest) ∧
    forwardPacketsFromServer m (.readErr :: crest) = [] := by
  refine ⟨?_, ?_, rfl, ?_, ?_, rfl⟩
  · intro h
    simp only [handleClientSession, h]
  · intro d h1 h2
    simp only [handleClientSession, h1, h2]
  · intro h
    simp only [forwardPacketsFromServer, h]
  · intro d h1 h2
    simp only [forwardPacketsFromServer, h1, h2]

/-- Witness for `session_loop_resilient`: the empty frame fails
deobfuscation, is dropped, and the loop continues. -/
theorem session_loop_resilient_witness :
    deobfuscatePacket [] = .error "invalid packet format" ∧
      handleClientSession mleTest [.msg []] = handleClientSession mleTest [] :=
  ⟨rfl, (session_loop_resilient mleTest [] [] [] true "invalid packet format").1 rfl⟩

end StealthVPN
